import Mathlib

/-!
Verification of the StackTrace library core (StackTrace.cpp / Utilities.cpp)
against its natural-language specification.

The C++ sources are shallowly embedded: machine addresses are Nat values
(pointers are compared as unsigned integers), C strings are lists of
characters, external effects (popen, fgets, dladdr, GetProcAddress) enter as
explicit oracle parameters, and the static caches become explicit state that
is threaded through the call model.
-/

namespace StackTrace

/-! ## findfirst (StackTrace.cpp lines 149-168)

The C function is a bisection loop.  The while loop carries no fuel in C; the
embedding adds a fuel argument to make the function total, and findfirst
passes enough fuel (the vector length) for the loop to reach its exit
condition whenever the guards before the loop have established
X[lower] < Y <= X[upper] with lower < upper, which is the only situation in
which the source runs the loop. -/

/-- Loop body of findfirst (lines 160-166): bisection on [lower, upper]. -/
def findfirstLoop (X : List Nat) (Y : Nat) : Nat → Nat → Nat → Nat
  | 0, _, upper => upper
  | fuel + 1, lower, upper =>
    if upper - lower = 1 then upper
    else
      let value := (upper + lower) / 2
      if X.getD value 0 ≥ Y then findfirstLoop X Y fuel lower value
      else findfirstLoop X Y fuel value upper

/-- findfirst (lines 149-168), instantiated at TYPE = the address type, with
addresses read as unsigned integers.  Returns 0 for an empty vector, 0 when
X[0] >= Y, size-1 when X[size-1] < Y, and otherwise runs the bisection
loop on [0, size-1]. -/
def findfirst (X : List Nat) (Y : Nat) : Nat :=
  if X.isEmpty then 0
  else
    let upper := X.length - 1
    if X.getD 0 0 ≥ Y then 0
    else if X.getD upper 0 < Y then upper
    else findfirstLoop X Y X.length 0 upper

/-- The bisection loop keeps its result in (lower, upper]; no sortedness is
needed for this bound. -/
theorem findfirstLoop_bounds (X : List Nat) (Y : Nat) :
    ∀ (fuel lower upper : Nat), lower < upper → upper - lower ≤ fuel →
      lower < findfirstLoop X Y fuel lower upper ∧
        findfirstLoop X Y fuel lower upper ≤ upper := by
  intro fuel
  induction fuel with
  | zero => intro lower upper h1 h2; omega
  | succ fuel ih =>
    intro lower upper h1 h2
    simp only [findfirstLoop]
    by_cases hgap : upper - lower = 1
    · simp [hgap]; omega
    · simp only [hgap, if_false]
      by_cases hcmp : X.getD ((upper + lower) / 2) 0 ≥ Y
      · simp only [hcmp, if_true]
        have h3 := ih lower ((upper + lower) / 2) (by omega) (by omega)
        omega
      · simp only [hcmp, if_false]
        have h3 := ih ((upper + lower) / 2) upper (by omega) (by omega)
        omega

/-- Under the entry invariant X[lower] < Y <= X[upper], the loop returns an
index r with X[r-1] < Y <= X[r]; again no sortedness is needed. -/
theorem findfirstLoop_spec (X : List Nat) (Y : Nat) :
    ∀ (fuel lower upper : Nat), lower < upper → upper - lower ≤ fuel →
      X.getD lower 0 < Y → Y ≤ X.getD upper 0 →
      lower < findfirstLoop X Y fuel lower upper ∧
        findfirstLoop X Y fuel lower upper ≤ upper ∧
        X.getD (findfirstLoop X Y fuel lower upper - 1) 0 < Y ∧
        Y ≤ X.getD (findfirstLoop X Y fuel lower upper) 0 := by
  intro fuel
  induction fuel with
  | zero => intro lower upper h1 h2; omega
  | succ fuel ih =>
    intro lower upper h1 h2 hlo hhi
    simp only [findfirstLoop]
    by_cases hgap : upper - lower = 1
    · simp only [hgap, if_true]
      have hl : upper - 1 = lower := by omega
      refine ⟨by omega, le_refl _, ?_, hhi⟩
      rw [hl]; exact hlo
    · simp only [hgap, if_false]
      by_cases hcmp : X.getD ((upper + lower) / 2) 0 ≥ Y
      · simp only [hcmp, if_true]
        have h3 := ih lower ((upper + lower) / 2) (by omega) (by omega) hlo hcmp
        exact ⟨h3.1, by omega, h3.2.2⟩
      · simp only [hcmp, if_false]
        have h3 := ih ((upper + lower) / 2) upper (by omega) (by omega) (by omega) hhi
        exact ⟨by omega, h3.2.1, h3.2.2⟩

/-- findfirst stays strictly below the vector length on nonempty input. -/
theorem findfirst_lt_length (X : List Nat) (Y : Nat) (h : X ≠ []) :
    findfirst X Y < X.length := by
  have hne : X.isEmpty = false := by
    cases X with
    | nil => exact absurd rfl h
    | cons a l => rfl
  have hlen : 0 < X.length := by
    cases X with
    | nil => exact absurd rfl h
    | cons a l => simp
  simp only [findfirst, hne, Bool.false_eq_true, if_false, ge_iff_le]
  by_cases h0 : Y ≤ X.getD 0 0
  · rw [if_pos h0]; exact hlen
  · rw [if_neg h0]
    by_cases h1 : X.getD (X.length - 1) 0 < Y
    · rw [if_pos h1]; omega
    · rw [if_neg h1]
      by_cases h2 : 0 < X.length - 1
      · have := findfirstLoop_bounds X Y X.length 0 (X.length - 1) h2 (by omega)
        omega
      · -- length = 1: here X[0] < Y and not X[0] < Y, impossible
        exfalso
        have hx : X.length - 1 = 0 := by omega
        rw [hx] at h1
        omega

/-- When X is sorted and Y lies strictly between X[k] and X[k+1] (lower
bound at k+1), findfirst returns k + 1. -/
theorem findfirst_lowerBound (X : List Nat) (Y : Nat) (k : Nat)
    (hs : X.Pairwise (· ≤ ·)) (hk : k + 1 < X.length)
    (h1 : X.getD k 0 < Y) (h2 : Y ≤ X.getD (k + 1) 0) :
    findfirst X Y = k + 1 := by
  have mono : ∀ i j : Nat, i ≤ j → j < X.length → X.getD i 0 ≤ X.getD j 0 := by
    intro i j hij hj
    rcases Nat.eq_or_lt_of_le hij with heq | hlt
    · rw [heq]
    · have hi : i < X.length := by omega
      rw [List.getD_eq_getElem X 0 hi, List.getD_eq_getElem X 0 hj]
      exact List.pairwise_iff_getElem.mp hs i j hi hj hlt
  have hlen2 : 2 ≤ X.length := by omega
  have hne : X.isEmpty = false := by
    cases X with
    | nil => simp at hk
    | cons a l => rfl
  simp only [findfirst, hne, Bool.false_eq_true, if_false, ge_iff_le]
  have h0 : ¬ (Y ≤ X.getD 0 0) := by
    have := mono 0 k (Nat.zero_le k) (by omega)
    omega
  rw [if_neg h0]
  have hlast : ¬ (X.getD (X.length - 1) 0 < Y) := by
    have := mono (k + 1) (X.length - 1) (by omega) (by omega)
    omega
  rw [if_neg hlast]
  have hloop := findfirstLoop_spec X Y X.length 0 (X.length - 1)
    (by omega) (by omega) (by omega) (by omega)
  set r := findfirstLoop X Y X.length 0 (X.length - 1) with hr
  obtain ⟨hr1, hr2, hr3, hr4⟩ := hloop
  by_contra hne2
  rcases Nat.lt_or_ge r (k + 1) with hlt | hge
  · have := mono r k (by omega) (by omega)
    omega
  · have hgt : k + 1 < r := by omega
    have := mono (k + 1) (r - 1) (by omega) (by omega)
    omega

/-! ## The symbol cache data (StackTrace.cpp lines 188-193) -/

/-- global_symbols_struct (lines 188-193): parallel vectors of addresses,
one-character symbol kinds and names, plus the load error code. -/
structure global_symbols_struct where
  address : List Nat
  type : List Char
  obj : List (List Char)
  error : Int
deriving DecidableEq, Repr

/-- The namespace-scope object global_symbols (line 193).  It has static
storage, so it is zero-initialized (empty vectors, error 0); no code in the
translation unit ever writes to it, so it keeps this value for the whole
run. -/
def global_symbols : global_symbols_struct :=
  { address := [], type := [], obj := [], error := 0 }

/-- stack_info as used by StackTrace.cpp: object, filename and function are
std::string values, line is the signed integer assigned from atoi. -/
structure stack_info where
  address : Nat
  address2 : Nat
  object : List Char
  filename : List Char
  function : List Char
  line : Int
deriving DecidableEq, Repr

/-- Modelled from the spec: the body of the stack_info default constructor is
not among these sources (only the declaration in the header).  Spec section 3
fixes the defaults: strings empty if unknown, line 0 meaning unknown. -/
def stack_info.init (address : Nat) : stack_info :=
  { address := address, address2 := 0, object := [], filename := [],
    function := [], line := 0 }

/-- getDataFromGlobalSymbols (lines 364-374), faithful to the source: it
checks the error field of the table returned by getSymbols2, but the vector
it searches with findfirst is global_symbols.address — the never-populated
global — and on index 0 it falls back to the executable name. -/
def getDataFromGlobalSymbols (data : global_symbols_struct) (exe : List Char)
    (info : stack_info) : stack_info :=
  if data.error = 0 then
    let index := findfirst global_symbols.address info.address
    if index > 0 then
      { info with object := global_symbols.obj.getD (index - 1) [] }
    else
      { info with object := exe }
  else info

/-- The lookup getDataFromGlobalSymbols embodies (lines 368-372), as a
function of the table it is applied to: index = findfirst over the address
vector, and the record at index - 1 when index > 0, no record otherwise.
This is the lookup of spec section 4.2 over a loaded table. -/
def lookupRecord (address : List Nat) (obj : List (List Char)) (a : Nat) :
    Option (List Char) :=
  let index := findfirst address a
  if index > 0 then some (obj.getD (index - 1) []) else none

/-! ## The nm output parser inside getSymbols2 (StackTrace.cpp lines 251-272)

Each fgets line is a list of characters (fgets lines are NUL-free and carry
at most one newline, at the end; the model is total over arbitrary lists).
strchr-based splitting becomes splitAtChar, the d = strchr(c, newline)
truncation becomes takeToNewline, and strtoul(a, nullptr, 16) becomes
strtoul16. -/

/-- Split a list at the first occurrence of ch, as the pair of code between
a = buf and the null byte that b[0] = 0 writes over the separator, and the
tail b after it; none when strchr returns nullptr. -/
def splitAtChar (ch : Char) : List Char → Option (List Char × List Char)
  | [] => none
  | c :: cs =>
    if c = ch then some ([], cs)
    else
      match splitAtChar ch cs with
      | none => none
      | some (a, b) => some (c :: a, b)

/-- Truncate at the first newline: models d = strchr(c, newline); d[0] = 0. -/
def takeToNewline : List Char → List Char
  | [] => []
  | c :: cs => if c = '\n' then [] else c :: takeToNewline cs

/-- ULONG_MAX for the 64-bit unsigned long of the target platform. -/
def ULONG_MAX : Nat := 2 ^ 64 - 1

/-- Characters isspace accepts in the C locale. -/
def isSpaceC (c : Char) : Bool :=
  c = ' ' || c = '\t' || c = '\n' || c = '\x0b' || c = '\x0c' || c = '\r'

/-- Value of one hexadecimal digit character, none for a non-digit. -/
def hexDigitVal? (c : Char) : Option Nat :=
  if '0' ≤ c ∧ c ≤ '9' then some (c.toNat - '0'.toNat)
  else if 'a' ≤ c ∧ c ≤ 'f' then some (c.toNat - 'a'.toNat + 10)
  else if 'A' ≤ c ∧ c ≤ 'F' then some (c.toNat - 'A'.toNat + 10)
  else none

/-- Accumulate the value of the leading run of hexadecimal digits. -/
def hexValue : List Char → Nat → Nat
  | [], acc => acc
  | c :: cs, acc =>
    match hexDigitVal? c with
    | some d => hexValue cs (acc * 16 + d)
    | none => acc

/-- strtoul(a, nullptr, 16): skip isspace characters, accept an optional
sign, an optional 0x or 0X, then the leading hexadecimal digits; the value
saturates at ULONG_MAX and a minus sign negates modulo 2^64. -/
def strtoul16 (l : List Char) : Nat :=
  let l1 := l.dropWhile isSpaceC
  let signed : Bool × List Char :=
    match l1 with
    | '-' :: rest => (true, rest)
    | '+' :: rest => (false, rest)
    | _ => (false, l1)
  let l3 : List Char :=
    match signed.2 with
    | '0' :: 'x' :: rest => rest
    | '0' :: 'X' :: rest => rest
    | _ => signed.2
  let v0 := hexValue l3 0
  let v := if v0 > ULONG_MAX then ULONG_MAX else v0
  if signed.1 then (2 ^ 64 - v % 2 ^ 64) % 2 ^ 64 else v

/-- One iteration of the parse loop (lines 252-271) on one fgets line:
skip when buf[0] is a space; split at the first and second space characters
(skip when either strchr misses); truncate the name at the newline.  The
record is (address from strtoul16, kind character b[0] — the NUL terminator,
Char.ofNat 0, when the second segment is empty — and the name). -/
def parseNMLine (buf : List Char) : Option (Nat × Char × List Char) :=
  match buf with
  | [] => none
  | c0 :: _ =>
    if c0 = ' ' then none
    else
      match splitAtChar ' ' buf with
      | none => none
      | some (a, rest1) =>
        match splitAtChar ' ' rest1 with
        | none => none
        | some (b, c) =>
          some (strtoul16 a, b.headD (Char.ofNat 0), takeToNewline c)

/-- The three push_back calls of an accepted line (lines 269-271). -/
def pushRecord (d : global_symbols_struct) (r : Nat × Char × List Char) :
    global_symbols_struct :=
  { d with
    address := d.address ++ [r.1]
    type := d.type ++ [r.2.1]
    obj := d.obj ++ [r.2.2] }

/-- The while ( fgets ... ) loop (lines 251-272) over the stream lines. -/
def parseNM (d : global_symbols_struct) : List (List Char) → global_symbols_struct
  | [] => d
  | l :: ls =>
    match parseNMLine l with
    | none => parseNM d ls
    | some r => parseNM (pushRecord d r) ls

/-! ## getSymbols2 / getSymbols (StackTrace.cpp lines 226-296), USE_NM build

The static local data of getSymbols2 becomes an explicit Option state (none
models loaded = false); the interaction with nm becomes an NMRun oracle:
popen may fail, or the stream yields lines, and the C++ parse may throw
after some number of processed lines (push_back or the string constructor
throwing, caught at line 275). -/

/-- Outcome of one run of the nm pipeline. -/
inductive NMRun where
  | popenFail : NMRun
  | ok : List (List Char) → NMRun
  | throwAfter : List (List Char) → Nat → NMRun
deriving DecidableEq

/-- The zero-initialized static data of getSymbols2 (line 229). -/
def emptyGS : global_symbols_struct :=
  { address := [], type := [], obj := [], error := 0 }

/-- The load performed on the first call (lines 235-281): popen failure sets
error = -2 and returns early (lines 246-249); otherwise the parse loop runs,
a thrown exception is caught and sets error = -3 (line 276), and line 278
then unconditionally assigns error = 0. -/
def loadSymbols : NMRun → global_symbols_struct
  | NMRun.popenFail => { emptyGS with error := -2 }
  | NMRun.ok ls => { parseNM emptyGS ls with error := 0 }
  | NMRun.throwAfter ls k =>
    let d := parseNM emptyGS (ls.take k)
    let caught := { d with error := -3 }
    { caught with error := 0 }

/-- Result of one call to getSymbols2: the returned reference, the new
static state, and whether this call ran the nm pipeline. -/
structure SymCall where
  data : global_symbols_struct
  state : Option global_symbols_struct
  ranNM : Bool
deriving DecidableEq

/-- getSymbols2 (lines 226-286) as a state transition: a none state
(loaded = false) triggers the load; afterwards every call returns the cached
table without touching nm. -/
def getSymbols2 (s : Option global_symbols_struct) (w : NMRun) : SymCall :=
  match s with
  | none => let d := loadSymbols w; { data := d, state := some d, ranNM := true }
  | some d => { data := d, state := some d, ranNM := false }

/-- Result of StackTrace::getSymbols: copies of the three vectors plus the
cached error code. -/
structure getSymbols_result where
  address : List Nat
  type : List Char
  obj : List (List Char)
  error : Int
  state : Option global_symbols_struct
deriving DecidableEq

/-- StackTrace::getSymbols (lines 287-296): copy the cached vectors into the
output arguments and return data.error. -/
def getSymbols (s : Option global_symbols_struct) (w : NMRun) : getSymbols_result :=
  let r := getSymbols2 s w
  { address := r.data.address, type := r.data.type, obj := r.data.obj,
    error := r.data.error, state := r.state }

/-! ## getFileAndLine / getStackInfo (StackTrace.cpp lines 302-408), Linux path

The addr2line child process (lines 309-313) enters as an oracle holding the
popen success flag and the two fgets lines; dladdr and the demangler
(lines 381-397) enter as an optional DlInfo oracle. -/

/-- Output of the addr2line invocation: popen success and the two fgets
results (none models fgets returning nullptr). -/
structure A2LOutput where
  ok : Bool
  line1 : Option (List Char)
  line2 : Option (List Char)
deriving DecidableEq

/-- Index of the first colon in the line, its length when there is none
(the C loop at line 327 then scans stale buffer bytes past the string; the
model reads only the current line). -/
def colonIdx : List Char → Nat
  | [] => 0
  | c :: cs => if c = ':' then 0 else colonIdx cs + 1

/-- Accumulate the value of the leading run of decimal digits. -/
def decValue : List Char → Nat → Nat
  | [], acc => acc
  | c :: cs, acc =>
    if '0' ≤ c ∧ c ≤ '9' then decValue cs (acc * 10 + (c.toNat - '0'.toNat))
    else acc

/-- atoi: skip isspace characters, accept an optional sign, then the leading
decimal digits; 0 when there are none. -/
def atoiI (l : List Char) : Int :=
  let l1 := l.dropWhile isSpaceC
  match l1 with
  | '-' :: rest => - (decValue rest 0 : Int)
  | '+' :: rest => (decValue rest 0 : Int)
  | _ => (decValue l1 0 : Int)

/-- The first fgets step of getFileAndLine (lines 318-322): when the read
succeeds and the function field is still empty, the line minus its last
character (the resize at line 321 removes the newline) becomes the function
name. -/
def applyLine1 (line1 : Option (List Char)) (info : stack_info) : stack_info :=
  match line1 with
  | some l1 =>
    if info.function = [] then { info with function := l1.dropLast }
    else info
  | none => info

/-- The second fgets step of getFileAndLine (lines 324-331): when the read
succeeds and the line starts neither with a question mark nor with the NUL
byte, the text before the first colon becomes the filename and the atoi of
the rest becomes the line. -/
def applyLine2 (line2 : Option (List Char)) (info : stack_info) : stack_info :=
  match line2 with
  | none => info
  | some l2 =>
    match l2 with
    | [] => info
    | c :: _ =>
      if c = '?' ∨ c = Char.ofNat 0 then info
      else
        { info with
          filename := l2.take (colonIdx l2)
          line := atoiI (l2.drop (colonIdx l2 + 1)) }

/-- getFileAndLine (lines 302-332), USE_LINUX branch.  A failed popen
returns the frame unchanged; otherwise the two fgets steps run in order. -/
def getFileAndLine (out : A2LOutput) (info : stack_info) : stack_info :=
  if out.ok = false then info
  else applyLine2 out.line2 (applyLine1 out.line1 info)

/-- subtractAddress (lines 89-93): absolute difference of two addresses. -/
def subtractAddress (a b : Nat) : Nat := max a b - min a b

/-- What a successful dladdr call, plus the demangler, provides
(lines 381-397): the module base and name, the nearest symbol name if any,
and its demangled form when abi::__cxa_demangle succeeds. -/
structure DlInfo where
  dli_fbase : Nat
  dli_fname : List Char
  dli_sname : Option (List Char)
  demangled : Option (List Char)
deriving DecidableEq

/-- The successful-dladdr branch of getStackInfo (lines 387-401): address2
and object from the loader, function from the demangler when it succeeds,
from dli_sname otherwise when that is non-null. -/
def applyDlInfo (address : Nat) (d : DlInfo) (info : stack_info) : stack_info :=
  let info2 := { info with
    address2 := subtractAddress address d.dli_fbase
    object := d.dli_fname }
  match d.demangled with
  | some dem => { info2 with function := dem }
  | none =>
    match d.dli_sname with
    | some sn => { info2 with function := sn }
    | none => info2

/-- getStackInfo (lines 376-408), Linux/_GNU_SOURCE build with USE_ABI.
When dladdr fails the frame goes through getDataFromGlobalSymbols and then
getFileAndLine (early return at line 385); otherwise address2, object and
function come from dladdr/the demangler and getFileAndLine runs at
line 406. -/
def getStackInfo (data : global_symbols_struct) (exe : List Char)
    (dl : Option DlInfo) (a2l : A2LOutput) (address : Nat) : stack_info :=
  let info := stack_info.init address
  match dl with
  | none => getFileAndLine a2l (getDataFromGlobalSymbols data exe info)
  | some d => getFileAndLine a2l (applyDlInfo address d info)

/-! ## Utilities::terminate (Utilities.cpp lines 105-163) -/

/-- Observable events on the terminate path: text emitted to the process
error stream, the MPI global abort request, and the platform abort
primitive. -/
inductive TermEvent where
  | emit : List Char → TermEvent
  | mpiAbort : TermEvent
  | stdAbort : TermEvent
deriving DecidableEq

/-- callAbort (Utilities.cpp lines 127-134): gcov dump if configured, unlock
the terminate mutex, std::abort.  The observable event is the platform
abort. -/
def callAbort : List TermEvent := [TermEvent.stdAbort]

/-- The abort_error as the terminate path sees it: only the what() text is
read. -/
structure abort_error where
  what : List Char
deriving DecidableEq

/-- Utilities::terminate (Utilities.cpp lines 135-163): after taking the
terminate mutex and clearing the error handlers (neither emits anything),
force_exit > 1 goes straight to callAbort; otherwise the message is emitted
and, when abort_throwException is false, force_exit is set to 2 and an MPI
abort is requested first when MPI is initialized and not finalized
(mpiActive).  Returns the event list and the force_exit value after the
call. -/
def terminate (force_exit : Int) (abort_throwException : Bool)
    (mpiActive : Bool) (err : abort_error) : List TermEvent × Int :=
  if force_exit > 1 then (callAbort, force_exit)
  else if !abort_throwException then
    (TermEvent.emit err.what ::
      ((if mpiActive then [TermEvent.mpiAbort] else []) ++ callAbort), 2)
  else
    (TermEvent.emit err.what :: callAbort, force_exit)

/-! ## GetModuleListTH32 dll selection (StackTrace.cpp lines 628-661) -/

/-- The three GetProcAddress results for one successfully loaded library:
whether CreateToolhelp32Snapshot, Module32First and Module32Next were
found. -/
structure DllCaps where
  pCT32S : Bool
  pM32F : Bool
  pM32N : Bool
deriving DecidableEq

/-- The break condition at line 655: all three entry points found. -/
def allEntryPoints (c : DllCaps) : Bool := c.pCT32S && c.pM32F && c.pM32N

/-- The dll loop of GetModuleListTH32 (lines 648-659) over the LoadLibrary
results for the dllname list (kernel32.dll then tlhelp32.dll): a failed
LoadLibrary is skipped; a loaded library with all three entry points ends
the loop; otherwise FreeLibrary runs and the loop continues with the next
name.  Returns the index and capabilities of the library held when the loop
ends, or none when hToolhelp is still NULL afterwards (line 661). -/
def selectToolhelpDll : List (Option DllCaps) → Option (Nat × DllCaps)
  | [] => none
  | none :: rest =>
    match selectToolhelpDll rest with
    | none => none
    | some (i, c) => some (i + 1, c)
  | some c :: rest =>
    if allEntryPoints c then some (0, c)
    else
      match selectToolhelpDll rest with
      | none => none
      | some (i, c2) => some (i + 1, c2)

/-! ## StackFrame serialization

Modelled from the spec: the bodies of stack_info::pack and
stack_info::unpack are not among these sources — the header only declares
them (part_000 lines 915-918).  Spec section 6 fixes the layout: address
(8 bytes LE), address2 (8 bytes LE), line (4 bytes LE, clamped to 255 to fit
the nominal 1-byte field), then length-prefixed byte arrays for object,
filename and function; the length prefixes are taken 4 bytes LE like the
packArray count. -/

/-- Little-endian encoding of v on w bytes. -/
def toLE : Nat → Nat → List Nat
  | 0, _ => []
  | w + 1, v => v % 256 :: toLE w (v / 256)

/-- Little-endian decoding. -/
def fromLE : List Nat → Nat
  | [] => 0
  | b :: bs => b + 256 * fromLE bs

/-- Modelled from the spec: the StackFrame record of spec section 3 as
serialized by pack/unpack, with the strings as byte arrays. -/
structure StackFrame where
  address : Nat
  address2 : Nat
  line : Nat
  object : List Nat
  filename : List Nat
  function : List Nat
deriving DecidableEq

/-- Modelled from the spec: stack_info::pack with the section 6 layout. -/
def StackFrame.pack (f : StackFrame) : List Nat :=
  toLE 8 f.address ++ toLE 8 f.address2 ++ toLE 4 (min f.line 255) ++
    (toLE 4 f.object.length ++ f.object) ++
    (toLE 4 f.filename.length ++ f.filename) ++
    (toLE 4 f.function.length ++ f.function)

/-- Modelled from the spec: stack_info::unpack reading the section 6 layout
and returning the decoded frame together with the rest of the buffer (the
advanced pointer). -/
def StackFrame.unpack (ptr : List Nat) : StackFrame × List Nat :=
  let address := fromLE (ptr.take 8)
  let p1 := ptr.drop 8
  let address2 := fromLE (p1.take 8)
  let p2 := p1.drop 8
  let line := fromLE (p2.take 4)
  let p3 := p2.drop 4
  let n1 := fromLE (p3.take 4)
  let p4 := p3.drop 4
  let object := p4.take n1
  let p5 := p4.drop n1
  let n2 := fromLE (p5.take 4)
  let p6 := p5.drop 4
  let filename := p6.take n2
  let p7 := p6.drop n2
  let n3 := fromLE (p7.take 4)
  let p8 := p7.drop 4
  let function := p8.take n3
  let p9 := p8.drop n3
  (⟨address, address2, line, object, filename, function⟩, p9)

/-! ## Supporting lemmas -/

/-- splitAtChar in terms of the space-delimited segments: it succeeds exactly
when the character occurs, yielding the segment before the first occurrence
and the tail after it. -/
theorem splitAtChar_eq (ch : Char) :
    ∀ l : List Char,
      splitAtChar ch l =
        if 1 ≤ l.count ch then
          some (l.takeWhile (fun c => !(c == ch)),
            (l.dropWhile (fun c => !(c == ch))).tail)
        else none := by
  intro l
  induction l with
  | nil => simp [splitAtChar]
  | cons c cs ih =>
    simp only [splitAtChar]
    by_cases hc : c = ch
    · subst hc
      rw [if_pos rfl,
        if_pos (show 1 ≤ List.count c (c :: cs) by simp [List.count_cons])]
      simp
    · have hcc : (c == ch) = false := by simp [hc]
      have hcount : List.count ch (c :: cs) = List.count ch cs := by
        simp [List.count_cons, hc]
      rw [if_neg hc, ih]
      by_cases h1 : 1 ≤ List.count ch cs
      · rw [if_pos h1, if_pos (by rw [hcount]; exact h1)]
        simp [List.takeWhile_cons, List.dropWhile_cons, hcc]
      · rw [if_neg h1, if_neg (by rw [hcount]; exact h1)]

/-- The count of ch drops by one from a list to the tail after its first
occurrence. -/
theorem count_tail_dropWhile (ch : Char) :
    ∀ l : List Char, 1 ≤ l.count ch →
      l.count ch = ((l.dropWhile (fun c => !(c == ch))).tail).count ch + 1 := by
  intro l
  induction l with
  | nil => simp
  | cons c cs ih =>
    intro h
    by_cases hc : c = ch
    · subst hc
      simp [List.dropWhile_cons, List.count_cons]
    · have hcc : (c == ch) = false := by simp [hc]
      have hcount : (c :: cs).count ch = cs.count ch := by
        simp [List.count_cons, hc]
      rw [hcount] at h ⊢
      rw [List.dropWhile_cons, hcc]
      exact ih h

/-- parseNMLine in terms of space-delimited segments: a line is accepted
exactly when its first character is not a space and it holds at least two
space characters; the address is the strtoul16 of the first segment, the
kind is the first character of the second segment (the NUL terminator when
that segment is empty), and the name is the rest after the second space
truncated at the newline. -/
theorem parseNMLine_eq (l : List Char) :
    parseNMLine l =
      if l.headD ' ' ≠ ' ' ∧ 2 ≤ List.count ' ' l then
        some (strtoul16 (l.takeWhile (fun c => !(c == ' '))),
          (((l.dropWhile (fun c => !(c == ' '))).tail).takeWhile
              (fun c => !(c == ' '))).headD (Char.ofNat 0),
          takeToNewline
            ((((l.dropWhile (fun c => !(c == ' '))).tail).dropWhile
                (fun c => !(c == ' '))).tail))
      else none := by
  cases l with
  | nil => simp [parseNMLine]
  | cons c0 rest =>
    simp only [parseNMLine, List.headD_cons]
    by_cases hc0 : c0 = ' '
    · rw [if_pos hc0, if_neg (by simp [hc0])]
    · rw [if_neg hc0, splitAtChar_eq]
      by_cases h1 : 1 ≤ List.count ' ' (c0 :: rest)
      · rw [if_pos h1]
        dsimp only
        have hrel := count_tail_dropWhile ' ' (c0 :: rest) h1
        rw [splitAtChar_eq]
        by_cases h2 :
            1 ≤ List.count ' ' ((c0 :: rest).dropWhile (fun c => !(c == ' '))).tail
        · rw [if_pos h2]
          dsimp only
          rw [if_pos (show c0 ≠ ' ' ∧ 2 ≤ List.count ' ' (c0 :: rest) from
            ⟨hc0, by omega⟩)]
        · rw [if_neg h2]
          dsimp only
          rw [if_neg
            (show ¬(c0 ≠ ' ' ∧ 2 ≤ List.count ' ' (c0 :: rest)) from
              fun hand => by omega)]
      · rw [if_neg h1]
        dsimp only
        rw [if_neg
          (show ¬(c0 ≠ ' ' ∧ 2 ≤ List.count ' ' (c0 :: rest)) from
            fun hand => by omega)]

/-- The parse loop is the order-preserving filterMap of parseNMLine: the
three vectors extend in stream order, one record per accepted line. -/
theorem parseNM_filterMap :
    ∀ (ls : List (List Char)) (d : global_symbols_struct),
      (parseNM d ls).address =
          d.address ++ (ls.filterMap parseNMLine).map (fun r => r.1) ∧
        (parseNM d ls).type =
          d.type ++ (ls.filterMap parseNMLine).map (fun r => r.2.1) ∧
        (parseNM d ls).obj =
          d.obj ++ (ls.filterMap parseNMLine).map (fun r => r.2.2) := by
  intro ls
  induction ls with
  | nil => intro d; simp [parseNM]
  | cons l ls ih =>
    intro d
    simp only [parseNM]
    cases hp : parseNMLine l with
    | none => simp [List.filterMap_cons, hp, ih d]
    | some r =>
      have := ih (pushRecord d r)
      simp only [List.filterMap_cons, hp, List.map_cons]
      refine ⟨?_, ?_, ?_⟩
      · rw [this.1]; simp [pushRecord]
      · rw [this.2.1]; simp [pushRecord]
      · rw [this.2.2]; simp [pushRecord]

/-- toLE produces exactly w bytes. -/
theorem toLE_length : ∀ (w v : Nat), (toLE w v).length = w := by
  intro w
  induction w with
  | zero => intro v; rfl
  | succ w ih => intro v; simp [toLE, ih]

/-- fromLE inverts toLE on values that fit in w bytes. -/
theorem fromLE_toLE : ∀ (w v : Nat), v < 256 ^ w → fromLE (toLE w v) = v := by
  intro w
  induction w with
  | zero =>
    intro v h
    simp only [Nat.pow_zero, Nat.lt_one_iff] at h
    simp [toLE, fromLE, h]
  | succ w ih =>
    intro v h
    rw [pow_succ] at h
    simp only [toLE, fromLE]
    rw [ih (v / 256) (by omega)]
    omega

/-- getDataFromGlobalSymbols never touches the filename and line fields. -/
theorem getDataFromGlobalSymbols_preserves (data : global_symbols_struct)
    (exe : List Char) (info : stack_info) :
    (getDataFromGlobalSymbols data exe info).filename = info.filename ∧
      (getDataFromGlobalSymbols data exe info).line = info.line := by
  unfold getDataFromGlobalSymbols
  by_cases h : data.error = 0
  · rw [if_pos h]
    by_cases h2 : findfirst global_symbols.address info.address > 0
    · rw [if_pos h2]; exact ⟨rfl, rfl⟩
    · rw [if_neg h2]; exact ⟨rfl, rfl⟩
  · rw [if_neg h]; exact ⟨rfl, rfl⟩

/-- applyLine1 never touches the filename and line fields. -/
theorem applyLine1_preserves (line1 : Option (List Char)) (info : stack_info) :
    (applyLine1 line1 info).filename = info.filename ∧
      (applyLine1 line1 info).line = info.line := by
  cases line1 with
  | none => exact ⟨rfl, rfl⟩
  | some l1 =>
    by_cases h : info.function = []
    · simp [applyLine1, h]
    · simp [applyLine1, h]

/-- When the file-and-line output line does not begin with a colon,
applyLine2 keeps the invariant: a frame entering with empty filename and
zero line leaves with line 0 whenever it leaves with an empty filename. -/
theorem applyLine2_invariant (line2 : Option (List Char)) (info : stack_info)
    (hl : info.line = 0)
    (hc : ∀ l2, line2 = some l2 → l2.headD ' ' ≠ ':') :
    (applyLine2 line2 info).filename = [] →
      (applyLine2 line2 info).line = 0 := by
  cases line2 with
  | none => intro _; exact hl
  | some l2 =>
    cases l2 with
    | nil => intro _; exact hl
    | cons c cs =>
      by_cases hq : c = '?' ∨ c = Char.ofNat 0
      · simp only [applyLine2, if_pos hq]; intro _; exact hl
      · simp only [applyLine2, if_neg hq]
        intro hempty
        exfalso
        have hcol : c ≠ ':' := by simpa using hc (c :: cs) rfl
        simp only [colonIdx, if_neg hcol] at hempty
        simp [List.take_succ_cons] at hempty

/-- applyDlInfo never touches the filename and line fields. -/
theorem applyDlInfo_preserves (address : Nat) (d : DlInfo) (info : stack_info) :
    (applyDlInfo address d info).filename = info.filename ∧
      (applyDlInfo address d info).line = info.line := by
  unfold applyDlInfo
  cases d.demangled with
  | some dem => exact ⟨rfl, rfl⟩
  | none =>
    cases d.dli_sname with
    | some sn => exact ⟨rfl, rfl⟩
    | none => exact ⟨rfl, rfl⟩

/-- The two-step invariant for getFileAndLine. -/
theorem getFileAndLine_invariant (out : A2LOutput) (info : stack_info)
    (hl : info.line = 0)
    (hc : ∀ l2, out.line2 = some l2 → l2.headD ' ' ≠ ':') :
    (getFileAndLine out info).filename = [] →
      (getFileAndLine out info).line = 0 := by
  unfold getFileAndLine
  by_cases hok : out.ok = false
  · rw [if_pos hok]; intro _; exact hl
  · rw [if_neg hok]
    have hp := applyLine1_preserves out.line1 info
    exact applyLine2_invariant out.line2 _ (hp.2.trans hl) hc

/-- The parse loop leaves the error field alone. -/
theorem parseNM_error :
    ∀ (ls : List (List Char)) (d : global_symbols_struct),
      (parseNM d ls).error = d.error := by
  intro ls
  induction ls with
  | nil => intro d; rfl
  | cons l ls ih =>
    intro d
    simp only [parseNM]
    cases parseNMLine l with
    | none => exact ih d
    | some r => exact (ih (pushRecord d r)).trans rfl

/-- A library chosen by the dll loop has all three entry points. -/
theorem selectToolhelpDll_full :
    ∀ (dlls : List (Option DllCaps)) (i : Nat) (c : DllCaps),
      selectToolhelpDll dlls = some (i, c) → allEntryPoints c = true := by
  intro dlls
  induction dlls with
  | nil => intro i c h; exact absurd h (by simp [selectToolhelpDll])
  | cons d rest ih =>
    intro i c h
    cases d with
    | none =>
      simp only [selectToolhelpDll] at h
      cases hr : selectToolhelpDll rest with
      | none => rw [hr] at h; exact absurd h (by simp)
      | some p =>
        obtain ⟨i0, c0⟩ := p
        rw [hr] at h
        simp only [Option.some.injEq, Prod.mk.injEq] at h
        rw [← h.2]
        exact ih i0 c0 hr
    | some c1 =>
      simp only [selectToolhelpDll] at h
      by_cases hall : allEntryPoints c1 = true
      · rw [if_pos hall] at h
        simp only [Option.some.injEq, Prod.mk.injEq] at h
        rw [← h.2]
        exact hall
      · rw [if_neg hall] at h
        cases hr : selectToolhelpDll rest with
        | none => rw [hr] at h; exact absurd h (by simp)
        | some p =>
          obtain ⟨i0, c0⟩ := p
          rw [hr] at h
          simp only [Option.some.injEq, Prod.mk.injEq] at h
          rw [← h.2]
          exact ih i0 c0 hr

/-- Every library before the chosen one either failed to load or lacked at
least one of the three entry points. -/
theorem selectToolhelpDll_earlier_not_full :
    ∀ (dlls : List (Option DllCaps)) (i : Nat) (c : DllCaps),
      selectToolhelpDll dlls = some (i, c) →
      ∀ (j : Nat) (c2 : DllCaps), j < i → dlls.getD j none = some c2 →
        allEntryPoints c2 = false := by
  intro dlls
  induction dlls with
  | nil => intro i c h; exact absurd h (by simp [selectToolhelpDll])
  | cons d rest ih =>
    intro i c h j c2 hj hget
    cases d with
    | none =>
      simp only [selectToolhelpDll] at h
      cases hr : selectToolhelpDll rest with
      | none => rw [hr] at h; exact absurd h (by simp)
      | some p =>
        obtain ⟨i0, c0⟩ := p
        rw [hr] at h
        simp only [Option.some.injEq, Prod.mk.injEq] at h
        cases j with
        | zero => exact absurd hget (by simp)
        | succ j0 =>
          have hj0 : j0 < i0 := by omega
          exact ih i0 c0 hr j0 c2 hj0 (by simpa using hget)
    | some c1 =>
      simp only [selectToolhelpDll] at h
      by_cases hall : allEntryPoints c1 = true
      · rw [if_pos hall] at h
        simp only [Option.some.injEq, Prod.mk.injEq] at h
        omega
      · rw [if_neg hall] at h
        cases hr : selectToolhelpDll rest with
        | none => rw [hr] at h; exact absurd h (by simp)
        | some p =>
          obtain ⟨i0, c0⟩ := p
          rw [hr] at h
          simp only [Option.some.injEq, Prod.mk.injEq] at h
          cases j with
          | zero =>
            have : c2 = c1 := by simpa using hget.symm
            rw [this]
            exact Bool.eq_false_iff.mpr hall
          | succ j0 =>
            have hj0 : j0 < i0 := by omega
            exact ih i0 c0 hr j0 c2 hj0 (by simpa using hget)

/-! ## Claims -/

/-- C1: the claim says the lookup in getDataFromGlobalSymbols finds the
record of the cached table immediately preceding the address.  The code
searches the never-populated global_symbols vector instead of the loaded
table: with a successfully loaded table holding records at 16 (name f) and
48 (name g), looking up address 32 yields no record and falls back to the
executable name, although the loaded table itself holds the strictly
preceding record f at 16. -/
theorem C1_lookup_reads_wrong_table :
    (getDataFromGlobalSymbols
        ⟨[16, 48], ['T', 'T'], [['f'], ['g']], 0⟩ ['e']
        (stack_info.init 32)).object = ['e'] ∧
      lookupRecord [16, 48] [['f'], ['g']] 32 = some ['f'] := by decide

/-- C2: the symbol load is idempotent.  The first call (state none) runs the
nm pipeline and caches the resulting table in the state; every call on a
populated state returns the cached table unchanged without running nm; and
when the first load fails at popen, the cached error -2 is returned to the
first and to every subsequent caller. -/
theorem C2_getSymbols_load_idempotent (w w2 : NMRun) (d : global_symbols_struct) :
    (getSymbols2 none w).ranNM = true ∧
      (getSymbols2 none w).state = some (getSymbols2 none w).data ∧
      getSymbols2 (some d) w2 = { data := d, state := some d, ranNM := false } ∧
      (getSymbols none NMRun.popenFail).error = -2 ∧
      (getSymbols (getSymbols none NMRun.popenFail).state w2).error = -2 :=
  ⟨rfl, rfl, rfl, rfl, rfl⟩

/-- C3: a terminate call entered while a termination sequence is already in
progress (force_exit greater than 1) emits nothing to the error stream and
goes straight to the platform abort primitive. -/
theorem C3_terminate_reentry_bypasses_output (force_exit : Int)
    (abort_throwException mpiActive : Bool) (err : abort_error)
    (h : 1 < force_exit) :
    terminate force_exit abort_throwException mpiActive err =
      ([TermEvent.stdAbort], force_exit) := by
  simp [terminate, callAbort, h]

/-- Witness for C3 at force_exit = 2. -/
theorem C3_terminate_reentry_witness :
    terminate 2 true false ⟨['b']⟩ = ([TermEvent.stdAbort], 2) :=
  C3_terminate_reentry_bypasses_output 2 true false ⟨['b']⟩ (by norm_num)

/-- C4: unpack inverts pack on every frame whose line is at most 255 (and
whose numeric fields fit their encodings: 64-bit addresses, 32-bit string
lengths, as in the C structure). -/
theorem C4_pack_unpack_roundtrip (f : StackFrame)
    (h1 : f.line ≤ 255) (h2 : f.address < 2 ^ 64) (h3 : f.address2 < 2 ^ 64)
    (h4 : f.object.length < 2 ^ 32) (h5 : f.filename.length < 2 ^ 32)
    (h6 : f.function.length < 2 ^ 32) :
    StackFrame.unpack (StackFrame.pack f) = (f, []) := by
  have p64 : (256 : Nat) ^ 8 = 2 ^ 64 := by norm_num
  have p32 : (256 : Nat) ^ 4 = 2 ^ 32 := by norm_num
  have e1 := toLE_length 8 f.address
  have e2 := toLE_length 8 f.address2
  have e3 := toLE_length 4 (min f.line 255)
  have e4 := toLE_length 4 f.object.length
  have e5 := toLE_length 4 f.filename.length
  have e6 := toLE_length 4 f.function.length
  simp only [StackFrame.pack, StackFrame.unpack, List.append_assoc]
  rw [List.take_left' e1, List.drop_left' e1]
  rw [List.take_left' e2, List.drop_left' e2]
  rw [List.take_left' e3, List.drop_left' e3]
  rw [List.take_left' e4, List.drop_left' e4]
  rw [fromLE_toLE 4 f.object.length (by rw [p32]; exact h4)]
  rw [List.take_left' (rfl : f.object.length = f.object.length)]
  rw [List.drop_left' (rfl : f.object.length = f.object.length)]
  rw [List.take_left' e5, List.drop_left' e5]
  rw [fromLE_toLE 4 f.filename.length (by rw [p32]; exact h5)]
  rw [List.take_left' (rfl : f.filename.length = f.filename.length)]
  rw [List.drop_left' (rfl : f.filename.length = f.filename.length)]
  rw [List.take_left' e6, List.drop_left' e6]
  rw [fromLE_toLE 4 f.function.length (by rw [p32]; exact h6)]
  rw [List.take_length, List.drop_length]
  rw [fromLE_toLE 8 f.address (by rw [p64]; exact h2)]
  rw [fromLE_toLE 8 f.address2 (by rw [p64]; exact h3)]
  rw [fromLE_toLE 4 (min f.line 255) (by rw [p32]; omega)]
  rw [Nat.min_eq_left h1]

/-- Witness for C4 on a concrete frame. -/
theorem C4_pack_unpack_witness :
    StackFrame.unpack (StackFrame.pack ⟨1, 2, 3, [65], [66, 67], [68]⟩) =
      (⟨1, 2, 3, [65], [66, 67], [68]⟩, []) :=
  C4_pack_unpack_roundtrip ⟨1, 2, 3, [65], [66, 67], [68]⟩
    (by norm_num) (by norm_num) (by norm_num)
    (by norm_num) (by norm_num) (by norm_num)

/-- C5 counterexample: the claim accepts a line if and only if it does not
start with whitespace; the line starting with a tab — a whitespace
character — is nevertheless accepted by the code, which only tests for the
space character. -/
theorem C5_whitespace_claim_counterexample :
    (parseNMLine ('\t' :: "x y z\n".toList)).isSome = true ∧
      Char.isWhitespace '\t' = true := by decide

/-- C5 (amended): a line is accepted exactly when its first character is not
the space character and it holds at least two spaces (three possibly-empty
space-separated fields); an accepted line yields the record (strtoul16 of
the first segment, first character of the second segment — the NUL byte
when that segment is empty — and the remainder after the second space up to
the newline); records are appended to the three parallel vectors in stream
order, and rejected lines are skipped without touching the error field. -/
theorem C5_nm_parser_characterization (ls : List (List Char)) (l : List Char) :
    (parseNMLine l =
      if l.headD ' ' ≠ ' ' ∧ 2 ≤ List.count ' ' l then
        some (strtoul16 (l.takeWhile (fun c => !(c == ' '))),
          (((l.dropWhile (fun c => !(c == ' '))).tail).takeWhile
              (fun c => !(c == ' '))).headD (Char.ofNat 0),
          takeToNewline
            ((((l.dropWhile (fun c => !(c == ' '))).tail).dropWhile
                (fun c => !(c == ' '))).tail))
      else none) ∧
      (parseNM emptyGS ls).address =
        (ls.filterMap parseNMLine).map (fun r => r.1) ∧
      (parseNM emptyGS ls).type =
        (ls.filterMap parseNMLine).map (fun r => r.2.1) ∧
      (parseNM emptyGS ls).obj =
        (ls.filterMap parseNMLine).map (fun r => r.2.2) ∧
      (parseNM emptyGS ls).error = 0 := by
  have hfold := parseNM_filterMap ls emptyGS
  refine ⟨parseNMLine_eq l, ?_, ?_, ?_, parseNM_error ls emptyGS⟩
  · rw [hfold.1]; rfl
  · rw [hfold.2.1]; rfl
  · rw [hfold.2.2]; rfl

/-- C6 counterexample: with duplicate records at address 10 (names a then b)
and one at 20 (name c), looking up 15 — inside the range of the symbol at
10 — returns b, the latest-inserted duplicate, not the earliest-inserted a
that the claim promises. -/
theorem C6_first_wins_counterexample :
    lookupRecord [10, 10, 20] [['a'], ['b'], ['c']] 15 = some ['b'] ∧
      lookupRecord [10, 10, 20] [['a'], ['b'], ['c']] 15 ≠ some ['a'] := by
  decide

/-- C6 (amended): on a sorted table the lookup returns the record at the
greatest index whose address is strictly below the looked-up address — for
duplicate addresses the latest-inserted record (last-wins). -/
theorem C6_duplicate_lookup_last_wins (addrs : List Nat)
    (objs : List (List Char)) (a k : Nat)
    (hs : addrs.Pairwise (· ≤ ·)) (hk : k + 1 < addrs.length)
    (h1 : addrs.getD k 0 < a) (h2 : a ≤ addrs.getD (k + 1) 0) :
    lookupRecord addrs objs a = some (objs.getD k []) := by
  unfold lookupRecord
  rw [findfirst_lowerBound addrs a k hs hk h1 h2]
  simp

/-- Witness for C6 on the duplicate table. -/
theorem C6_duplicate_lookup_witness :
    lookupRecord [10, 10, 20] [['a'], ['b'], ['c']] 15 = some ['b'] ∧
      lookupRecord [1, 2] [['x'], ['y']] 2 = some ['x'] :=
  ⟨C6_duplicate_lookup_last_wins [10, 10, 20] [['a'], ['b'], ['c']] 15 1
      (by decide) (by decide) (by decide) (by decide),
    C6_duplicate_lookup_last_wins [1, 2] [['x'], ['y']] 2 0
      (by decide) (by decide) (by decide) (by decide)⟩

/-- C7 counterexample: when the addr2line file-and-line output line is ":7",
the resolver produces a frame with an empty filename and line 7, violating
the claimed invariant that an empty filename forces line 0. -/
theorem C7_invariant_counterexample :
    (getStackInfo ⟨[], [], [], -1⟩ [] none
        ⟨true, some [], some (':' :: "7\n".toList)⟩ 5).filename = [] ∧
      (getStackInfo ⟨[], [], [], -1⟩ [] none
        ⟨true, some [], some (':' :: "7\n".toList)⟩ 5).line = 7 := by decide

/-- C7 (amended): every frame the resolver produces satisfies: empty
filename implies line 0, provided the symboliser file-and-line output line
does not begin with a colon (the only way the code can store an empty
filename together with a nonzero line). -/
theorem C7_empty_filename_line_zero (data : global_symbols_struct)
    (exe : List Char) (dl : Option DlInfo) (a2l : A2LOutput) (address : Nat)
    (hc : ∀ l2, a2l.line2 = some l2 → l2.headD ' ' ≠ ':')
    (hempty : (getStackInfo data exe dl a2l address).filename = []) :
    (getStackInfo data exe dl a2l address).line = 0 := by
  revert hempty
  unfold getStackInfo
  cases dl with
  | none =>
    have hp := getDataFromGlobalSymbols_preserves data exe (stack_info.init address)
    exact getFileAndLine_invariant a2l _ (hp.2.trans rfl) hc
  | some d =>
    have hp := applyDlInfo_preserves address d (stack_info.init address)
    exact getFileAndLine_invariant a2l _ (hp.2.trans rfl) hc

/-- Witness for C7 with no symboliser output. -/
theorem C7_empty_filename_witness :
    (getStackInfo ⟨[], [], [], -1⟩ [] none ⟨false, none, none⟩ 5).line = 0 :=
  C7_empty_filename_line_zero ⟨[], [], [], -1⟩ [] none ⟨false, none, none⟩ 5
    (by intro l2 h; cases h) (by decide)

/-- C8 counterexample: with kernel32 loading but yielding only one of the
three entry points and tlhelp32 yielding all three, the loop does proceed to
the second dll and selects it — refuting the claim that a partially
succeeding first dll stops the search. -/
theorem C8_partial_first_dll_counterexample :
    allEntryPoints ⟨true, false, false⟩ = false ∧
      selectToolhelpDll [some ⟨true, false, false⟩, some ⟨true, true, true⟩] =
        some (1, ⟨true, true, true⟩) := by decide

/-- C8 (amended): the loop selects the first dll that yields all three
entry points; every dll tried before the selected one had been loaded
without all three (or failed to load), was freed, and the search went on. -/
theorem C8_first_full_dll_selected (dlls : List (Option DllCaps)) (i : Nat)
    (c : DllCaps) (h : selectToolhelpDll dlls = some (i, c)) (j : Nat)
    (c2 : DllCaps) (hj : j < i) (hget : dlls.getD j none = some c2) :
    allEntryPoints c = true ∧ allEntryPoints c2 = false :=
  ⟨selectToolhelpDll_full dlls i c h,
    selectToolhelpDll_earlier_not_full dlls i c h j c2 hj hget⟩

/-- Witness for C8 on the partial/full pair. -/
theorem C8_first_full_dll_witness :
    allEntryPoints ⟨true, true, true⟩ = true ∧
      allEntryPoints ⟨true, false, false⟩ = false :=
  C8_first_full_dll_selected
    [some ⟨true, false, false⟩, some ⟨true, true, true⟩] 1 ⟨true, true, true⟩
    (by decide) 0 ⟨true, false, false⟩ (by decide) (by decide)

/-- C9: whenever popen succeeds on the first load — whether the parse loop
completes or throws partway — the cached error is 0, because line 278
assigns 0 unconditionally after the try/catch; the parse-failure code -3 is
invisible to every caller of getSymbols. -/
theorem C9_parse_throw_error_invisible (ls : List (List Char)) (k : Nat)
    (w2 : NMRun) :
    (getSymbols none (NMRun.ok ls)).error = 0 ∧
      (getSymbols none (NMRun.throwAfter ls k)).error = 0 ∧
      (getSymbols (getSymbols none (NMRun.throwAfter ls k)).state w2).error = 0 :=
  ⟨rfl, rfl, rfl⟩

/-- C10: findfirst returns 0 on the empty vector and an index strictly
below the length on a nonempty vector, so the access at index - 1 that
getDataFromGlobalSymbols performs stays within bounds whenever the address
and obj vectors have equal length. -/
theorem C10_findfirst_index_in_bounds (X : List Nat) (Y : Nat)
    (objs : List (List Char)) (h1 : X ≠ []) (h2 : X.length = objs.length) :
    findfirst X Y < X.length ∧ findfirst X Y - 1 < objs.length ∧
      findfirst [] Y = 0 := by
  have hb := findfirst_lt_length X Y h1
  exact ⟨hb, by omega, rfl⟩

/-- Witness for C10 on a one-element table. -/
theorem C10_findfirst_bounds_witness :
    findfirst [5] 3 < ([5] : List Nat).length ∧
      findfirst [5] 3 - 1 < ([['a']] : List (List Char)).length ∧
      findfirst [] 3 = 0 :=
  C10_findfirst_index_in_bounds [5] 3 [['a']] (by decide) (by decide)

end StackTrace
